import Mathlib

/-!
Verification of the composite-object interception layer of
`torchdynamo/variables/nn_module.py` (shiyu22/towhee-compiler).

The Python module defines two variable classes used by the symbolic tracer:

* `NNModuleVariable` — an identity-specialized handle `(module_type, module_key)`
  on a live `torch.nn.Module` fetched from the output-graph registry;
* `UnspecializedNNModuleVariable` — the class-level fallback handle.

This file gives a shallow embedding of the methods those claims are about:
`var_getattr`, `call_function` (Sequential unrolling), `call_method`
(`__getitem__`, the constant-argument gate), `unpack_var_sequence`,
`convert_to_unspecialized`, `UnspecializedNNModuleVariable.__init__`,
`UnspecializedNNModuleVariable.call_method`.  Stateful calls into the
surrounding engine (`tx.call_function`, `tx.output.add_submodule`, nested
inlining) are made explicit: each embedded method returns a result value
recording which outcome the straight-line Python code reached, together with
the data (provenance chains, guard sets, traced call events) it constructed
on the way.  Failure modes are kept distinct, matching the source:
`unimplemented(...)` diagnostics, failed Python `assert` statements, and raw
host exceptions (AttributeError / ValueError / TypeError / KeyError / IndexError)
are separate constructors.
-/

set_option maxHeartbeats 1000000

namespace TowheeCompiler

/-! ## Provenance (Source) model

Mirrors `torchdynamo/source.py` constructors used by `nn_module.py`:
`AttrSource(base, member)`, `GetItemSource(base, index)`, `NNModuleSource(inner)`,
`NotNNModuleSource(inner)`, over some root source.  `GetItemSource` keys are
either integers or strings in this module. -/

inductive Key where
  | int (i : Int)
  | str (s : String)
deriving DecidableEq

inductive Source where
  | root (name : String)
  | attr (base : Source) (name : String)
  | item (base : Source) (key : Key)
  | nnModule (base : Source)
  | notNNModule (base : Source)
deriving DecidableEq

/-- Modelled from the spec: the implementation of `Source.is_nn_module` lives in
`torchdynamo/source.py`, which is not among the provided sources (only its
constructors are imported by `nn_module.py`).  Spec section 3: a provenance
carries an isTrackedComposite flag; a provenance wrapped by the
identity-tracking marker (`NNModuleSource`) reports tracked, the explicit
opt-out wrapper (`NotNNModuleSource`) and all plain provenances report
untracked. -/
def Source.is_nn_module : Source → Bool
  | .nnModule _ => true
  | _ => false

/-! ## Guard model -/

inductive GuardKind where
  | hasattrGuard
  | typeMatch
  | nnModuleParamNames
  | otherGuard
deriving DecidableEq

structure Guard where
  src : Source
  kind : GuardKind
deriving DecidableEq

/-- Python `set.add` on the accumulated guard set (spec: duplicate insertion is
idempotent).  The set is modelled as a duplicate-free insertion list. -/
def addGuard (gs : List Guard) (g : Guard) : List Guard :=
  if gs.contains g then gs else gs ++ [g]

/-! ## Association-table helpers

Python dict lookups (`base_dict[name]`, `name in table`) over tables modelled
as association lists. -/

def lookupStr {α : Type} : List (String × α) → String → Option α
  | [], _ => none
  | (k, v) :: rest, name => if k = name then some v else lookupStr rest name

/-- Python `name in table`. -/
def hasKey {α : Type} (tbl : List (String × α)) (name : String) : Bool :=
  (lookupStr tbl name).isSome

theorem lookupStr_isSome_of_hasKey {α : Type} {tbl : List (String × α)} {name : String}
    (h : hasKey tbl name = true) : (lookupStr tbl name).isSome = true := h

/-! ## Attribute resolution: `NNModuleVariable.var_getattr` (source lines 85-140)

The live module object is fetched from the registry; the parts of it the
algorithm reads are captured in `GetattrState`:

* `baseDictDirect` — `object.__getattribute__(base, "__dict__")` minus the three
  bookkeeping tables (a state that stores something under the literal keys
  `_modules` / `_parameters` / `_buffers` can still be expressed by putting
  those names in `baseDictDirect`);
* `modulesTbl` / `paramsTbl` / `buffersTbl` — `base_dict["_modules"]`,
  `base_dict["_parameters"]`, `base_dict["_buffers"]`;
* `classAttrs` — the MRO-merged class attribute table: `inspect.getattr_static`
  resolves a name to the first match along `inspect.getmro(base.__class__)`,
  and `all_class_attribute_names` is exactly the key set of this merged table.

Descriptor values found by the static class-hierarchy lookup are classified the
way lines 123-138 classify them with `istype`. -/

inductive Descr where
  | prop (fget : String)
  | classMeth (func : String)
  | staticMeth (func : String)
  | funcAttr (func : String)
  | otherAttr
deriving DecidableEq

structure GetattrState (V : Type) where
  source : Option Source
  baseDictDirect : List (String × V)
  modulesTbl : List (String × V)
  paramsTbl : List (String × V)
  buffersTbl : List (String × V)
  classAttrs : List (String × Descr)

inductive MemberBranch where
  | direct
  | child
  | param
  | buffer
deriving DecidableEq

inductive SubObj (V : Type) where
  | member (b : MemberBranch) (v : V)
  | staticAttr (d : Descr)
deriving DecidableEq

/-- Lines 105-115: the `elif` chain computing `subobj` and `object_member`.
`none` models `inspect.getattr_static` raising `AttributeError` (the name is in
none of the instance tables and not declared anywhere in the class hierarchy). -/
def resolveSubobj {V : Type} (st : GetattrState V) (name : String) : Option (SubObj V) :=
  if (lookupStr st.baseDictDirect name).isSome then
    (lookupStr st.baseDictDirect name).map (SubObj.member .direct)
  else if (lookupStr st.modulesTbl name).isSome && !(hasKey st.classAttrs name) then
    (lookupStr st.modulesTbl name).map (SubObj.member .child)
  else if (lookupStr st.paramsTbl name).isSome then
    (lookupStr st.paramsTbl name).map (SubObj.member .param)
  else if (lookupStr st.buffersTbl name).isSome then
    (lookupStr st.buffersTbl name).map (SubObj.member .buffer)
  else
    (lookupStr st.classAttrs name).map SubObj.staticAttr

inductive GetattrResult (V : Type) where
  | noSourceDiag
  | directSlot (v : V)
  | childModule (v : V)
  | parameterSlot (v : V)
  | bufferSlot (v : V)
  | classOf
  | propertyCall (fget : String)
  | classMethodVar (func : String)
  | staticMethodVar (func : String)
  | instanceMethod (func : String)
  | unsupportedClassProperty
  | attributeErrorCrash
  | genericGetAttr
deriving DecidableEq

/-- Lines 85-138 of `var_getattr`, as far as the Python code returns or raises:
`some r` means the body returned result `r` (diagnostics and host errors
included); `none` means the body fell through to the trailing line 140.
All four `object_member` branches return `vars.build(tx, NNModuleSource(source))(subobj)`;
the constructor records which table `subobj` came from.  The descriptor
branches record which classification of lines 123-138 fired. -/
def var_getattr_body {V : Type} (st : GetattrState V) (name : String) :
    Option (GetattrResult V) :=
  if st.source.isNone then some .noSourceDiag
  else
    match resolveSubobj st name with
    | none => some .attributeErrorCrash
    | some (.member b v) =>
      some (match b with
        | .direct => .directSlot v
        | .child => .childModule v
        | .param => .parameterSlot v
        | .buffer => .bufferSlot v)
    | some (.staticAttr d) =>
      if name = "__class__" then some .classOf
      else
        some (match d with
          | .prop f => .propertyCall f
          | .classMeth f => .classMethodVar f
          | .staticMeth f => .staticMethodVar f
          | .funcAttr f => .instanceMethod f
          | .otherAttr => .unsupportedClassProperty)

/-- Line 140: `return vars.GetAttrVariable(self, name, **options)` — the
trailing fallback executed only if the conditional above it falls through. -/
def var_getattr {V : Type} (st : GetattrState V) (name : String) : GetattrResult V :=
  (var_getattr_body st name).getD .genericGetAttr

def isGenericFallback {V : Type} : GetattrResult V → Bool
  | .genericGetAttr => true
  | _ => false

/-- Resolution went through the class-hierarchy descriptor path of lines
123-138: property getter, classmethod, staticmethod, plain function, or the
`unimplemented("class property ...")` failure. -/
def isClassHierarchyResolution {V : Type} : GetattrResult V → Bool
  | .propertyCall _ => true
  | .classMethodVar _ => true
  | .staticMethodVar _ => true
  | .instanceMethod _ => true
  | .unsupportedClassProperty => true
  | _ => false

def isChildResolution {V : Type} : GetattrResult V → Bool
  | .childModule _ => true
  | _ => false

/-- C9: in `var_getattr`, both arms of the final `object_member` conditional
either return or fail with a diagnostic on every input, so the trailing
`GetAttrVariable` fallback at line 140 is unreachable for every handle state
and every attribute name: the body always produces an outcome, and the
function never yields the generic fallback. -/
theorem var_getattr_fallback_unreachable {V : Type} (st : GetattrState V) (name : String) :
    (var_getattr_body st name).isSome = true ∧
    isGenericFallback (var_getattr st name) = false := by
  unfold var_getattr var_getattr_body
  rcases hsrc : st.source.isNone with _ | _
  · simp only [Bool.false_eq_true, if_false]
    rcases hr : resolveSubobj st name with _ | sub
    · simp [isGenericFallback]
    · rcases sub with ⟨b, v⟩ | d
      · cases b <;> simp [isGenericFallback]
      · rcases hn : decide (name = "__class__") with _ | _ <;>
          [skip; skip] <;> cases d <;>
          simp_all [isGenericFallback]
  · simp [isGenericFallback]

/-- A handle state in which the attribute name `w` is registered in the
child-composite table, is declared as a plain function on the class hierarchy
(so it shadows the child), is not a direct instance slot — and is additionally
present in the named-parameter table. -/
def shadowedParamState : GetattrState Nat :=
  { source := some (.nnModule (.root "mod"))
  , baseDictDirect := []
  , modulesTbl := [("w", 100)]
  , paramsTbl := [("w", 200)]
  , buffersTbl := []
  , classAttrs := [("w", .funcAttr "w_fn")] }

/-- C1 counterexample: with `w` registered in the child-composite table,
declared on the class, and not a direct instance slot, resolution still need
not go through the class-hierarchy descriptor path — if `w` also sits in the
named-parameter table (checked at line 109 before the static class lookup),
`var_getattr` resolves it as a parameter data slot. -/
theorem var_getattr_shadowed_parameter_cex :
    hasKey shadowedParamState.modulesTbl "w" = true ∧
    hasKey shadowedParamState.classAttrs "w" = true ∧
    lookupStr shadowedParamState.baseDictDirect "w" = none ∧
    var_getattr shadowedParamState "w" = .parameterSlot 200 ∧
    isClassHierarchyResolution (var_getattr shadowedParamState "w") = false := by
  decide

/-- C1 (amended): for an identity-specialized handle (which always carries a
provenance) and an attribute name that is registered in the child-composite
table, is declared on the class or an ancestor, is not a direct instance data
slot, is additionally absent from the named-parameter and named-buffer tables,
and is not the literal name `__class__`, `var_getattr` never resolves the name
to the child composite and always resolves it through the class-hierarchy
descriptor path (property, classmethod, staticmethod, plain function, or the
unsupported-class-property failure). -/
theorem var_getattr_class_shadowing {V : Type} (st : GetattrState V) (name : String)
    (hsrc : st.source.isSome = true)
    (hchild : hasKey st.modulesTbl name = true)
    (hcls : hasKey st.classAttrs name = true)
    (hdir : lookupStr st.baseDictDirect name = none)
    (hpar : lookupStr st.paramsTbl name = none)
    (hbuf : lookupStr st.buffersTbl name = none)
    (hncls : name ≠ "__class__") :
    isChildResolution (var_getattr st name) = false ∧
    isClassHierarchyResolution (var_getattr st name) = true := by
  have hsrc2 : st.source.isNone = false := by
    rcases h : st.source with _ | s
    · rw [h] at hsrc; simp at hsrc
    · rfl
  obtain ⟨d, hd⟩ := Option.isSome_iff_exists.mp (lookupStr_isSome_of_hasKey hcls)
  have hres : resolveSubobj st name = some (.staticAttr d) := by
    unfold resolveSubobj
    rw [hdir, hpar, hbuf, hd]
    simp [hasKey, hd]
  unfold var_getattr var_getattr_body
  rw [hsrc2, hres]
  simp only [Bool.false_eq_true, if_false]
  rw [if_neg hncls]
  cases d <;> simp [isChildResolution, isClassHierarchyResolution]

/-- A handle state where `w` is a child composite shadowed by a class-level
property. -/
def shadowedPropState : GetattrState Nat :=
  { source := some (.nnModule (.root "m"))
  , baseDictDirect := []
  , modulesTbl := [("w", 1)]
  , paramsTbl := []
  , buffersTbl := []
  , classAttrs := [("w", .prop "w_get")] }

theorem var_getattr_class_shadowing_witness :
    isChildResolution (var_getattr shadowedPropState "w") = false ∧
    isClassHierarchyResolution (var_getattr shadowedPropState "w") = true :=
  var_getattr_class_shadowing shadowedPropState "w" (by decide) (by decide) (by decide)
    (by decide) (by decide) (by decide) (by decide)

/-! ## Call interception: `NNModuleVariable.call_function` (source lines 142-198)

The dispatch reads four facts about the live module, captured as flags:
`isinstance(mod, torch.nn.Sequential)`, `mod.__class__.forward is
torch.nn.Sequential.forward`, `is_allowed(mod.__class__)`, and
`is_lazy_module(mod)`.  In the unroll branch, `enumerate(mod)` yields the
registered children; each loop iteration registers child `idx` via
`tx.output.add_submodule(submod, self.module_key, idx, source=
NNModuleSource(GetItemSource(self.source, idx)))` and then performs one
intercepted call `tx.call_function(handle, [arg], {})` whose result `tx.pop()`
becomes the next running argument.  The engine's evaluation of one intercepted
child call is the parameter `callChild`; the trace collects one event
`(idx, child, argument)` per intercepted call, in order. -/

structure CallFnState where
  isSequentialInstance : Bool
  forwardIsDefault : Bool
  isAllowedClass : Bool
  isLazy : Bool
deriving DecidableEq

inductive CallFnResult (C V : Type) where
  | unrolled (trace : List (Nat × C × V)) (result : V)
  | assertError
  | hostError
  | proxyCallModule
  | inlineDefaultForward
  | inlineLazyCall
deriving DecidableEq

/-- The `for idx, submod in enumerate(mod)` loop of lines 156-168. -/
def unrollSeq {C V : Type} (callChild : C → V → V) :
    List C → Nat → V → List (Nat × C × V) × V
  | [], _, arg => ([], arg)
  | c :: rest, idx, arg =>
    let out := callChild c arg
    let r := unrollSeq callChild rest (idx + 1) out
    ((idx, c, arg) :: r.1, r.2)

def call_function {C V : Type} (st : CallFnState) (children : List C)
    (callChild : C → V → V) (args : List V) (kwargs : List (String × V)) :
    CallFnResult C V :=
  if st.isSequentialInstance && st.forwardIsDefault then
    -- unroll Sequential(): `assert not kwargs`, then `(arg,) = args`
    if !kwargs.isEmpty then .assertError
    else
      match args with
      | [arg] =>
        let r := unrollSeq callChild children 0 arg
        .unrolled r.1 r.2
      | _ => .hostError
  else if st.isAllowedClass then .proxyCallModule
  else if st.isLazy then .inlineLazyCall
  else .inlineDefaultForward

theorem unrollSeq_spec {C V : Type} (callChild : C → V → V) (cs : List C) (idx : Nat) (v : V) :
    (unrollSeq callChild cs idx v).2 = cs.foldl (fun a c => callChild c a) v ∧
    (unrollSeq callChild cs idx v).1.map (fun e => e.2.1) = cs ∧
    (unrollSeq callChild cs idx v).1.map (fun e => e.1) =
      (List.range cs.length).map (fun j => idx + j) ∧
    (unrollSeq callChild cs idx v).1.map (fun e => e.2.2) =
      (List.range cs.length).map (fun j => (cs.take j).foldl (fun a c => callChild c a) v) := by
  induction cs generalizing idx v with
  | nil => simp [unrollSeq]
  | cons c rest ih =>
    obtain ⟨ih1, ih2, ih3, ih4⟩ := ih (idx + 1) (callChild c v)
    refine ⟨by simp [unrollSeq, ih1], by simp [unrollSeq, ih2], ?_, ?_⟩
    · simp only [unrollSeq, List.map_cons, ih3, List.length_cons,
        List.range_succ_eq_map, List.map_map]
      refine congrArg (idx :: ·) (List.map_congr_left ?_)
      intro j _
      simp only [Function.comp_apply]
      omega
    · simp only [unrollSeq, List.map_cons, ih4, List.length_cons,
        List.range_succ_eq_map, List.map_map, List.take_zero, List.foldl_nil]
      refine congrArg (v :: ·) (List.map_congr_left ?_)
      intro j _
      simp [List.take_succ_cons]

/-- C2: on an identity-specialized handle whose live module is a
`torch.nn.Sequential` with the default (un-overridden) `forward`, called with
exactly one positional argument and no keyword arguments, `call_function`
unrolls the container: it issues one intercepted call per registered child, in
registration order (trace indices `0, 1, ...`), feeds the `j`-th call the
result of applying the first `j` children to the input, and returns the
composition of all children applied to the input — e.g. three children
`[A, B, C]` on `v0` trace as `A(v0)`, `B(A(v0))`, `C(B(A(v0)))` and the final
result is `C(B(A(v0)))`, not one opaque call node. -/
theorem call_function_unrolls_sequential {C V : Type} (allowedFlag lazyFlag : Bool)
    (children : List C) (callChild : C → V → V) (v0 : V) :
    call_function ⟨true, true, allowedFlag, lazyFlag⟩ children callChild [v0] [] =
      .unrolled (unrollSeq callChild children 0 v0).1 (unrollSeq callChild children 0 v0).2 ∧
    (unrollSeq callChild children 0 v0).2 =
      children.foldl (fun a c => callChild c a) v0 ∧
    (unrollSeq callChild children 0 v0).1.map (fun e => e.2.1) = children ∧
    (unrollSeq callChild children 0 v0).1.map (fun e => e.1) =
      List.range children.length ∧
    (unrollSeq callChild children 0 v0).1.map (fun e => e.2.2) =
      (List.range children.length).map
        (fun j => (children.take j).foldl (fun a c => callChild c a) v0) := by
  obtain ⟨h1, h2, h3, h4⟩ := unrollSeq_spec callChild children 0 v0
  refine ⟨by simp [call_function], h1, h2, ?_, h4⟩
  rw [h3]
  simp

/-! ## Python slice semantics

`keys = list(range(len(module)))[args[0].as_python_constant()]` (line 320) and
`module[slice]` (torch container `__getitem__` of a slice delegates to plain
list slicing) both use CPython sequence-slice semantics: `slice.indices(n)`
clamping followed by extraction of the arithmetic progression
`start, start + step, ...`.  A zero step raises `ValueError`. -/

structure PySlice where
  start : Option Int
  stop : Option Int
  step : Option Int
deriving DecidableEq

/-- CPython `PySlice_Unpack` + `PySlice_AdjustIndices` for a sequence of
length `n`: returns the clamped `(start, stop, step)`, or `none` for the
`ValueError: slice step cannot be zero`. -/
def PySlice.resolve (s : PySlice) (n : Nat) : Option (Int × Int × Int) :=
  let step := s.step.getD 1
  if step = 0 then none
  else
    let lower : Int := if step < 0 then -1 else 0
    let upper : Int := if step < 0 then (n : Int) - 1 else (n : Int)
    let start : Int :=
      match s.start with
      | none => if step < 0 then upper else lower
      | some v => if v < 0 then max (v + n) lower else min v upper
    let stop : Int :=
      match s.stop with
      | none => if step < 0 then lower else upper
      | some v => if v < 0 then max (v + n) lower else min v upper
    some (start, stop, step)

/-- CPython slice length: the number of indices the clamped slice selects. -/
def sliceCount (start stop step : Int) : Nat :=
  if 0 < step then
    if start < stop then ((stop - start - 1) / step + 1).toNat else 0
  else
    if stop < start then ((start - stop - 1) / (-step) + 1).toNat else 0

/-- The clamped slice's index progression `start, start + step, ...`. -/
def sliceProg (start stop step : Int) : List Int :=
  (List.range (sliceCount start stop step)).map (fun (j : Nat) => start + step * (j : Int))

/-- Python `l[s]` for a list `l` and slice `s` (`none` on zero step). -/
def pySliceList {α : Type} (l : List α) (s : PySlice) : Option (List α) :=
  match PySlice.resolve s l.length with
  | none => none
  | some t => some ((sliceProg t.1 t.2.1 t.2.2).filterMap (fun x => l.get? x.toNat))

/-- The concrete list of indices Python slice semantics selects from a
sequence of length `n` (the specification-side characterization: the clamped
arithmetic progression). -/
def pySelectedIndices (n : Nat) (s : PySlice) : Option (List Nat) :=
  match PySlice.resolve s n with
  | none => none
  | some t => some ((sliceProg t.1 t.2.1 t.2.2).map Int.toNat)

theorem sliceProg_bounds {n : Nat} {s : PySlice} {a b c : Int}
    (h : PySlice.resolve s n = some (a, b, c)) :
    ∀ x ∈ sliceProg a b c, 0 ≤ x ∧ x < (n : Int) := by
  unfold PySlice.resolve at h
  by_cases hc : s.step.getD 1 = 0
  · simp [hc] at h
  · simp only [hc, if_false, Option.some.injEq, Prod.mk.injEq] at h
    obtain ⟨ha, hb, hcc⟩ := h
    -- bounds on the clamped endpoints
    have hcne : c ≠ 0 := by rw [← hcc]; exact hc
    have hbounds :
        (0 < c → 0 ≤ a ∧ b ≤ (n : Int)) ∧ (c < 0 → a ≤ (n : Int) - 1 ∧ -1 ≤ b) := by
      subst hcc
      constructor
      · intro hpos
        have hneg : ¬ (s.step.getD 1 < 0) := by omega
        constructor
        · rw [← ha]
          rcases s.start with _ | v
          · simp [hneg]
          · simp only [hneg, if_false]
            by_cases hv : v < 0
            · simp only [hv, if_true]; exact le_max_right _ _
            · simp only [hv, if_false]; exact le_min (by omega) (by positivity)
        · rw [← hb]
          rcases s.stop with _ | v
          · simp [hneg]
          · simp only [hneg, if_false]
            by_cases hv : v < 0
            · simp only [hv, if_true]
              exact max_le (by omega) (by positivity)
            · simp only [hv, if_false]; exact min_le_right _ _
      · intro hneg2
        have hneg : s.step.getD 1 < 0 := hneg2
        constructor
        · rw [← ha]
          rcases s.start with _ | v
          · simp [hneg]
          · simp only [hneg, if_true]
            by_cases hv : v < 0
            · simp only [hv, if_true]
              exact max_le (by omega) (by omega)
            · simp only [hv, if_false]; exact min_le_right _ _
        · rw [← hb]
          rcases s.stop with _ | v
          · simp [hneg]
          · simp only [hneg, if_true]
            by_cases hv : v < 0
            · simp only [hv, if_true]; exact le_max_right _ _
            · simp only [hv, if_false]
              exact le_min (by omega) (by omega)
    intro x hx
    unfold sliceProg at hx
    rw [List.mem_map] at hx
    obtain ⟨j, hj, hxj⟩ := hx
    rw [List.mem_range] at hj
    rcases lt_trichotomy c 0 with hcneg | hczero | hcpos
    · -- negative step
      obtain ⟨haup, hblo⟩ := hbounds.2 hcneg
      unfold sliceCount at hj
      rw [if_neg (by omega : ¬ (0 : Int) < c)] at hj
      by_cases hba : b < a
      · rw [if_pos hba] at hj
        have hd : (0 : Int) ≤ a - b - 1 := by omega
        have hqnn : 0 ≤ (a - b - 1) / (-c) := Int.ediv_nonneg hd (by omega)
        have hjq : (j : Int) ≤ (a - b - 1) / (-c) := by
          have h1 : (j : Int) < (((a - b - 1) / (-c) + 1).toNat : Int) := by
            exact_mod_cast hj
          rw [Int.toNat_of_nonneg (by omega)] at h1
          omega
        have hdm := Int.ediv_add_emod (a - b - 1) (-c)
        have hmod := Int.emod_nonneg (a - b - 1) (by omega : (-c) ≠ 0)
        rw [neg_mul] at hdm
        have hcq : c * ((a - b - 1) / (-c)) ≤ c * (j : Int) :=
          mul_le_mul_of_nonpos_left hjq (le_of_lt hcneg)
        have hjnn : (0 : Int) ≤ (j : Int) := Int.natCast_nonneg j
        have hcj0 : c * (j : Int) ≤ 0 := by
          have := mul_le_mul_of_nonneg_right (le_of_lt hcneg) hjnn
          simpa using this
        omega
      · rw [if_neg hba] at hj
        omega
    · omega
    · -- positive step
      obtain ⟨halo, hbup⟩ := hbounds.1 hcpos
      unfold sliceCount at hj
      rw [if_pos hcpos] at hj
      by_cases hab : a < b
      · rw [if_pos hab] at hj
        have hd : (0 : Int) ≤ b - a - 1 := by omega
        have hqnn : 0 ≤ (b - a - 1) / c := Int.ediv_nonneg hd (by omega)
        have hjq : (j : Int) ≤ (b - a - 1) / c := by
          have h1 : (j : Int) < (((b - a - 1) / c + 1).toNat : Int) := by
            exact_mod_cast hj
          rw [Int.toNat_of_nonneg (by omega)] at h1
          omega
        have hdm := Int.ediv_add_emod (b - a - 1) c
        have hmod := Int.emod_nonneg (b - a - 1) (by omega : c ≠ 0)
        have hcj : c * (j : Int) ≤ c * ((b - a - 1) / c) :=
          mul_le_mul_of_nonneg_left hjq (by omega)
        have hcj0 : 0 ≤ c * (j : Int) := mul_nonneg (by omega) (Int.natCast_nonneg j)
        omega
      · rw [if_neg hab] at hj
        omega

theorem filterMap_range_get (n : Nat) :
    ∀ (l : List Int), (∀ x ∈ l, 0 ≤ x ∧ x < (n : Int)) →
      l.filterMap (fun x => (List.range n).get? x.toNat) = l.map Int.toNat := by
  intro l
  induction l with
  | nil => intro _; rfl
  | cons x rest ih =>
    intro hl
    have hx := hl x (by simp)
    have hxn : x.toNat < n := by omega
    have hget : (List.range n).get? x.toNat = some x.toNat := by
      simp [List.get?_eq_getElem?, List.getElem?_range hxn]
    simp only [List.filterMap_cons, hget, List.map_cons]
    rw [ih (fun y hy => hl y (by simp [hy]))]

theorem pySliceList_range (n : Nat) (s : PySlice) :
    pySliceList (List.range n) s = pySelectedIndices n s := by
  unfold pySliceList pySelectedIndices
  rw [List.length_range]
  cases h : PySlice.resolve s n with
  | none => rfl
  | some t =>
    rcases t with ⟨a, b, c⟩
    simp only [Option.some.injEq]
    exact filterMap_range_get n _ (sliceProg_bounds h)

/-! ## Method interception: `NNModuleVariable.call_method` (source lines 200-352)

Traced argument variables either are compile-time python constants
(`is_python_constant()` true, `as_python_constant()` yields the value) or are
not.  The constants this method ever inspects are integers, strings and
slices. -/

inductive ConstVal where
  | int (i : Int)
  | str (s : String)
  | sliceC (s : PySlice)
deriving DecidableEq

inductive Arg (V : Type) where
  | const (c : ConstVal)
  | nonconst (v : V)
deriving DecidableEq

def Arg.isPythonConstant {V : Type} : Arg V → Bool
  | .const _ => true
  | .nonconst _ => false

/-- `all(x.is_python_constant() for x in itertools.chain(args, kwargs.values()))`. -/
def allArgsConstant {V : Type} (args : List (Arg V)) (kwargs : List (String × Arg V)) : Bool :=
  args.all Arg.isPythonConstant && kwargs.all (fun p => p.2.isPythonConstant)

/-- The concrete container classes `call_method` distinguishes via
`isinstance` / `type(module).__getitem__` / `type(module) is ...` checks. -/
inductive NNContainerKind where
  | moduleList
  | parameterList
  | sequential
  | moduleDict
  | parameterDict
  | plainModule
deriving DecidableEq

/-- The fragment of the live module state `call_method` reads: for the ordered
containers (`ModuleList` / `ParameterList` / `Sequential`) `children` is the
element list in registration order; for the dict containers `entries` is the
keyed table (`_modules` for `ModuleDict`; a `ParameterDict` keeps its entries
in `_parameters` and its `_modules` is empty).  `checkInputDimInlineAllowed`
is the external `skipfiles.is_torch_inline_allowed(inspect.getfile(...))`
predicate on the class's `_check_input_dim`. -/
structure MethodState (V : Type) where
  source : Option Source
  kind : NNContainerKind
  children : List V
  entries : List (String × V)
  checkInputDimInlineAllowed : Bool

/-- How `type(module).__getitem__` fares against the assert of lines 308-312:
`ModuleList` / `ParameterList` inherit an accepted ordered `__getitem__`,
`ModuleDict` an accepted keyed one; `Sequential` and `ParameterDict` define
their own `__getitem__` (not in the accepted tuple), and a plain module has
none at all (the attribute access itself raises `AttributeError`). -/
inductive GetitemProtocol where
  | acceptedOrdered
  | acceptedDict
  | overriddenGetitem
  | absentGetitem
deriving DecidableEq

def getitemProtocol : NNContainerKind → GetitemProtocol
  | .moduleList => .acceptedOrdered
  | .parameterList => .acceptedOrdered
  | .moduleDict => .acceptedDict
  | .sequential => .overriddenGetitem
  | .parameterDict => .overriddenGetitem
  | .plainModule => .absentGetitem

/-- `torch.nn.ModuleList._get_abs_string_index`: bounds-check then normalize a
(possibly negative) integer index; `none` models the `IndexError`. -/
def absIndex (n : Nat) (i : Int) : Option Nat :=
  if -(n : Int) ≤ i ∧ i < (n : Int) then
    some (if i < 0 then (i + n).toNat else i.toNat)
  else none

/-- `len(module)` — all five container classes report the size of their own
table. -/
def moduleLen {V : Type} (st : MethodState V) : Nat :=
  match st.kind with
  | .moduleDict => st.entries.length
  | .parameterDict => st.entries.length
  | _ => st.children.length

inductive MethodResult (V : Type) where
  | callFunctionDelegation
  | constBool (b : Bool)
  | constInt (i : Int)
  | constStr (s : String)
  | nonConstDiag (name : String)
  | childrenList
  | namedParametersList
  | namedModulesList
  | parametersList
  | valuesList
  | itemsList
  | tupleOfHandles (items : List (Nat × Source × V))
  | singleHandle (key : ConstVal) (src : Source) (v : V)
  | assertError
  | hostError
  | genericDispatch
deriving DecidableEq

/-- The `__getitem__` branch, lines 306-342, after the protocol assert.
For an accepted ordered container: a slice argument selects
`keys = list(range(len(module)))[s]` and `module[s]`, registers one child per
selected element under provenance `NNModuleSource(GetItemSource(source, key))`
with the selected index as key, and returns them as an immutable tuple; a zero
step makes the key computation raise `ValueError` (host error).  An integer
argument resolves through `_get_abs_string_index` (IndexError out of range)
and returns a single registered child keyed by the raw constant.  Dict
containers take string keys (`KeyError` when absent); a slice into a dict
raises (unhashable key). -/
def getitemBranch {V : Type} (st : MethodState V) (arg : Arg V) : MethodResult V :=
  match getitemProtocol st.kind with
  | .absentGetitem => .hostError
  | .overriddenGetitem => .assertError
  | .acceptedDict =>
    match st.source with
    | none => .assertError
    | some ps =>
      match arg with
      | .const (.str k) =>
        match lookupStr st.entries k with
        | some v => .singleHandle (.str k) (Source.nnModule (Source.item ps (Key.str k))) v
        | none => .hostError
      | _ => .hostError
  | .acceptedOrdered =>
    match st.source with
    | none => .assertError
    | some ps =>
      match arg with
      | .const (.sliceC s) =>
        match pySliceList (List.range st.children.length) s, pySliceList st.children s with
        | some keys, some elems =>
          .tupleOfHandles ((keys.zip elems).map (fun p =>
            (p.1, Source.nnModule (Source.item ps (Key.int (p.1 : Int))), p.2)))
        | _, _ => .hostError
      | .const (.int i) =>
        match absIndex st.children.length i with
        | some k =>
          match st.children.get? k with
          | some v => .singleHandle (.int i) (Source.nnModule (Source.item ps (Key.int i))) v
          | none => .hostError
        | none => .hostError
      | _ => .hostError

def specialCasedMethodNames : List String :=
  ["forward", "_check_input_dim", "children", "named_parameters", "named_modules",
   "parameters", "values", "items", "__len__", "__contains__", "__getitem__",
   "_get_abs_string_index"]

/-- Lines 200-352.  `forward` delegates to `call_function`; an inline-allowed
`_check_input_dim` short-circuits to the constant `True`; every method
reaching line 220 with some non-constant argument raises the
`unimplemented("non-const NNModule method ...")` diagnostic; then the
special-cased names dispatch, and everything else falls to
`super().call_method` (generic dispatch).  The container-iteration results of
the `children`/`named_*`/`parameters`/`values`/`items` branches are summarized
by their tags; `__contains__` and `__len__` are evaluated against the
container tables; `__getitem__` is modelled in full by `getitemBranch`. -/
def nnmodule_call_method {V : Type} (st : MethodState V) (name : String)
    (args : List (Arg V)) (kwargs : List (String × Arg V)) : MethodResult V :=
  if name = "forward" then .callFunctionDelegation
  else if name = "_check_input_dim" ∧ st.checkInputDimInlineAllowed = true then
    .constBool true
  else if allArgsConstant args kwargs = false then .nonConstDiag name
  else if name = "children" then
    if args.isEmpty ∧ kwargs.isEmpty then .childrenList else .assertError
  else if name = "named_parameters" then .namedParametersList
  else if name = "named_modules" then .namedModulesList
  else if name = "parameters" then .parametersList
  else if name = "values" then
    if args.isEmpty ∧ kwargs.isEmpty then .valuesList else .assertError
  else if name = "items" then
    if args.isEmpty ∧ kwargs.isEmpty then .itemsList else .assertError
  else if name = "__len__" then
    if args.isEmpty ∧ kwargs.isEmpty then .constInt (moduleLen st) else .assertError
  else if name = "__contains__" then
    match args with
    | (Arg.const c) :: _ =>
      if st.kind = .moduleDict ∨ st.kind = .parameterDict then
        match c with
        | .str k => .constBool (if st.kind = .moduleDict then hasKey st.entries k else false)
        | .int _ => .constBool false
        | .sliceC _ => .hostError
      else .genericDispatch
    | _ => .genericDispatch
  else if name = "__getitem__" then
    if ¬ kwargs.isEmpty then .assertError
    else
      match args with
      | [a] => getitemBranch st a
      | _ => .assertError
  else if name = "_get_abs_string_index" then
    if ¬ kwargs.isEmpty then .assertError
    else
      match args with
      | [a] =>
        if st.kind ≠ .moduleList then .assertError
        else if st.source.isNone then .assertError
        else
          match a with
          | .const (.int i) =>
            match absIndex st.children.length i with
            | some k => .constStr (toString k)
            | none => .hostError
          | _ => .hostError
      | _ => .assertError
  else .genericDispatch

theorem slice_zip_spec {V : Type} (cs : List V) :
    ∀ (l : List Int), (∀ x ∈ l, 0 ≤ x ∧ x < (cs.length : Int)) →
      (l.map Int.toNat).length = (l.filterMap (fun x => cs.get? x.toNat)).length ∧
      ∀ p ∈ (l.map Int.toNat).zip (l.filterMap (fun x => cs.get? x.toNat)),
        cs.get? p.1 = some p.2 := by
  intro l
  induction l with
  | nil => intro _; exact ⟨rfl, by intro p hp; simp at hp⟩
  | cons x rest ih =>
    intro hl
    have hx := hl x (by simp)
    have hlt : x.toNat < cs.length := by omega
    obtain ⟨v, hv⟩ : ∃ v, cs.get? x.toNat = some v := by
      cases h : cs.get? x.toNat with
      | none => rw [List.get?_eq_none] at h; omega
      | some v => exact ⟨v, rfl⟩
    obtain ⟨ih1, ih2⟩ := ih (fun y hy => hl y (by simp [hy]))
    constructor
    · simp only [List.map_cons, List.filterMap_cons, hv, List.length_cons]
      omega
    · intro p hp
      simp only [List.map_cons, List.filterMap_cons, hv, List.zip_cons_cons,
        List.mem_cons] at hp
      rcases hp with hp | hp
      · rw [hp]; exact hv
      · exact ih2 p hp

/-- A 5-element `ModuleList` handle state. -/
def fiveChildState : MethodState Nat :=
  { source := some (.nnModule (.root "mods"))
  , kind := .moduleList
  , children := [10, 11, 12, 13, 14]
  , entries := []
  , checkInputDimInlineAllowed := false }

def zeroStepSlice : PySlice := ⟨none, none, some 0⟩

/-- C3 counterexample: `__getitem__` with the constant slice argument
`slice(None, None, 0)` on a 5-element ordered container does not return a
tuple of child handles — the key computation
`list(range(len(module)))[slice]` raises `ValueError: slice step cannot be
zero`, a host error escaping `call_method`. -/
theorem getitem_zero_step_slice_cex :
    nnmodule_call_method fiveChildState "__getitem__"
      [Arg.const (.sliceC zeroStepSlice)] [] = .hostError := by
  decide

/-- C3 (amended): `call_method("__getitem__")` on an identity-specialized
handle of an ordered container, given a constant slice argument whose step is
not zero, returns an immutable tuple with one tracked child handle per element
the slice selects under Python slice semantics; the handles carry provenance
`NNModuleSource(GetItemSource(parent, key))` and their keys are exactly the
selected indices, each handle wrapping the child stored at its key. -/
theorem getitem_slice_selects_indices {V : Type} (st : MethodState V) (ps : Source)
    (s : PySlice)
    (hkind : getitemProtocol st.kind = .acceptedOrdered)
    (hsrc : st.source = some ps)
    (hstep : s.step ≠ some 0) :
    ∃ keys items,
      pySelectedIndices st.children.length s = some keys ∧
      nnmodule_call_method st "__getitem__" [Arg.const (.sliceC s)] [] =
        .tupleOfHandles items ∧
      items.map (fun it => it.1) = keys ∧
      items.length = keys.length ∧
      ∀ it ∈ items, it.2.1 = Source.nnModule (Source.item ps (Key.int (it.1 : Int))) ∧
        st.children.get? it.1 = some it.2.2 := by
  have hstep1 : s.step.getD 1 ≠ 0 := by
    rcases hs : s.step with _ | k
    · decide
    · intro h0
      simp only [Option.getD_some] at h0
      exact hstep (by rw [hs, h0])
  obtain ⟨⟨a, ⟨b, c⟩⟩, hresv⟩ : ∃ t, PySlice.resolve s st.children.length = some t := by
    unfold PySlice.resolve
    rw [if_neg hstep1]
    exact ⟨_, rfl⟩
  have hbounds := sliceProg_bounds hresv
  have hsel : pySelectedIndices st.children.length s =
      some ((sliceProg a b c).map Int.toNat) := by
    unfold pySelectedIndices
    rw [hresv]
  have hkeys : pySliceList (List.range st.children.length) s =
      some ((sliceProg a b c).map Int.toNat) := by
    rw [pySliceList_range]
    exact hsel
  have helems : pySliceList st.children s =
      some ((sliceProg a b c).filterMap (fun x => st.children.get? x.toNat)) := by
    unfold pySliceList
    rw [hresv]
  obtain ⟨hlen, hmem⟩ := slice_zip_spec st.children (sliceProg a b c) hbounds
  refine ⟨(sliceProg a b c).map Int.toNat,
    (((sliceProg a b c).map Int.toNat).zip
        ((sliceProg a b c).filterMap (fun x => st.children.get? x.toNat))).map
      (fun p => (p.1, Source.nnModule (Source.item ps (Key.int (p.1 : Int))), p.2)),
    hsel, ?_, ?_, ?_, ?_⟩
  · have hred : nnmodule_call_method st "__getitem__" [Arg.const (.sliceC s)] [] =
        getitemBranch st (Arg.const (.sliceC s)) := by
      simp [nnmodule_call_method, allArgsConstant, Arg.isPythonConstant]
    rw [hred]
    unfold getitemBranch
    rw [hkind, hsrc]
    simp only [hkeys, helems]
  · rw [List.map_map]
    exact List.map_fst_zip _ _ (le_of_eq hlen)
  · rw [List.length_map, List.length_zip, List.length_map]
    rw [List.length_map] at hlen
    omega
  · intro it hit
    rw [List.mem_map] at hit
    obtain ⟨p, hp, hpe⟩ := hit
    rw [← hpe]
    exact ⟨rfl, hmem p hp⟩

def slice13 : PySlice := ⟨some 1, some 3, none⟩

theorem getitem_slice_selects_indices_witness :
    ∃ keys items,
      pySelectedIndices fiveChildState.children.length slice13 = some keys ∧
      nnmodule_call_method fiveChildState "__getitem__"
        [Arg.const (.sliceC slice13)] [] = .tupleOfHandles items ∧
      items.map (fun it => it.1) = keys ∧
      items.length = keys.length ∧
      ∀ it ∈ items,
        it.2.1 = Source.nnModule (Source.item (.nnModule (.root "mods"))
          (Key.int (it.1 : Int))) ∧
        fiveChildState.children.get? it.1 = some it.2.2 :=
  getitem_slice_selects_indices fiveChildState (.nnModule (.root "mods")) slice13
    (by decide) rfl (by decide)

/-- A plain (non-container) module handle state. -/
def gateState : MethodState Nat :=
  { source := some (.nnModule (.root "net"))
  , kind := .plainModule
  , children := []
  , entries := []
  , checkInputDimInlineAllowed := false }

/-- C4: for every method name outside the special-cased list, `call_method`
on an identity-specialized handle with at least one non-constant argument
(positional or keyword) fails with the `unimplemented("non-const NNModule
method ...")` diagnostic naming the method: the constant-argument gate at
lines 220-223 fires before any per-name dispatch. -/
theorem call_method_const_gate {V : Type} (st : MethodState V) (name : String)
    (args : List (Arg V)) (kwargs : List (String × Arg V))
    (hname : name ∉ specialCasedMethodNames)
    (hnc : allArgsConstant args kwargs = false) :
    nnmodule_call_method st name args kwargs = .nonConstDiag name := by
  have h1 : ¬ name = "forward" := by
    intro h
    apply hname
    rw [h]
    simp [specialCasedMethodNames]
  have h2 : ¬ (name = "_check_input_dim" ∧ st.checkInputDimInlineAllowed = true) := by
    rintro ⟨h, _⟩
    apply hname
    rw [h]
    simp [specialCasedMethodNames]
  unfold nnmodule_call_method
  rw [if_neg h1, if_neg h2, if_pos hnc]

theorem call_method_const_gate_witness :
    nnmodule_call_method gateState "to" [Arg.nonconst 7] [] = .nonConstDiag "to" :=
  call_method_const_gate gateState "to" [Arg.nonconst 7] [] (by decide) (by decide)

/-! ## Sequence expansion: `NNModuleVariable.unpack_var_sequence` (source lines 45-62)

The handle is `(module_type, module_key)`; the live object is fetched from the
registry, and `enumerate(base)` yields `elems`.  Each element is registered via
`tx.output.add_submodule(submod, self.module_key, idx,
source=NNModuleSource(GetItemSource(self.source, idx)))`. -/

structure NNModuleHandle (V : Type) where
  moduleKey : String
  source : Option Source
  kind : NNContainerKind
  elems : List V

/-- `isinstance(base, (torch.nn.ModuleList, torch.nn.ParameterList,
torch.nn.Sequential))` — the three recognized container kinds. -/
def threeContainerKinds : NNContainerKind → Bool
  | .moduleList => true
  | .parameterList => true
  | .sequential => true
  | _ => false

/-- One `add_submodule` registration performed by the comprehension at lines
53-62: the child object, the registry path `(moduleKey, childIdx)`, and the
provenance attached to the new child handle. -/
structure RegisteredChild (V : Type) where
  ownerKey : String
  childIdx : Nat
  src : Source
  child : V
deriving DecidableEq

inductive UnpackResult (V : Type) where
  | handles (items : List (RegisteredChild V))
  | assertErrorUnpack
  | unsupportedDiag (msg : String)
deriving DecidableEq

def isUnsupportedUnpack {V : Type} : UnpackResult V → Bool
  | .unsupportedDiag _ => true
  | _ => false

/-- Lines 45-62: both guards in the source are `assert` statements
(`assert isinstance(base, (...)), typestr(base)` and `assert self.source`),
not `unimplemented(...)` diagnostics. -/
def unpack_var_sequence {V : Type} (h : NNModuleHandle V) : UnpackResult V :=
  if threeContainerKinds h.kind = false then .assertErrorUnpack
  else
    match h.source with
    | none => .assertErrorUnpack
    | some ps =>
      .handles (h.elems.enum.map (fun p =>
        { ownerKey := h.moduleKey
        , childIdx := p.1
        , src := Source.nnModule (Source.item ps (Key.int (p.1 : Int)))
        , child := p.2 }))

/-- A `ModuleDict` handle — a container kind outside the recognized three. -/
def dictHandle : NNModuleHandle Nat :=
  { moduleKey := "layers"
  , source := some (.nnModule (.root "layers"))
  , kind := .moduleDict
  , elems := [1, 2] }

/-- C5 counterexample: on a container kind outside the three recognized ones
(`ModuleDict` here), `unpack_var_sequence` fails via the `assert isinstance`
statement (an `AssertionError`), not by signaling the unsupported-operation
diagnostic. -/
theorem unpack_unsupported_kind_cex :
    unpack_var_sequence dictHandle = .assertErrorUnpack ∧
    isUnsupportedUnpack (unpack_var_sequence dictHandle) = false := by
  decide

/-- C5 (amended): `unpack_var_sequence` on an identity-specialized handle
(which carries a provenance) succeeds exactly when the live object is one of
the three recognized container kinds, producing one child handle per element
in order, each registered via the Registry under path `(registryKey, idx)`
with provenance `indexed(parentProvenance, idx)`; for any other container
kind it fails — via an assertion failure, not the unsupported-operation
diagnostic. -/
theorem unpack_var_sequence_spec {V : Type} (h : NNModuleHandle V) (ps : Source)
    (hsrc : h.source = some ps) :
    (threeContainerKinds h.kind = true →
      ∃ items, unpack_var_sequence h = .handles items ∧
        items.map (fun it => it.child) = h.elems ∧
        items.map (fun it => it.childIdx) = List.range h.elems.length ∧
        ∀ it ∈ items, it.ownerKey = h.moduleKey ∧
          it.src = Source.nnModule (Source.item ps (Key.int (it.childIdx : Int)))) ∧
    (threeContainerKinds h.kind = false →
      unpack_var_sequence h = .assertErrorUnpack) := by
  constructor
  · intro hk
    refine ⟨h.elems.enum.map (fun p =>
      { ownerKey := h.moduleKey
      , childIdx := p.1
      , src := Source.nnModule (Source.item ps (Key.int (p.1 : Int)))
      , child := p.2 }), ?_, ?_, ?_, ?_⟩
    · unfold unpack_var_sequence
      rw [hk, hsrc]
      simp
    · rw [List.map_map]
      exact List.enum_map_snd h.elems
    · rw [List.map_map]
      exact List.enum_map_fst h.elems
    · intro it hit
      rw [List.mem_map] at hit
      obtain ⟨p, _, hpe⟩ := hit
      rw [← hpe]
      exact ⟨rfl, rfl⟩
  · intro hk
    unfold unpack_var_sequence
    rw [hk]
    simp

/-- A 2-element `Sequential` handle. -/
def seqHandle : NNModuleHandle Nat :=
  { moduleKey := "body"
  , source := some (.nnModule (.root "body"))
  , kind := .sequential
  , elems := [5, 6] }

theorem unpack_var_sequence_spec_witness :
    ∃ items, unpack_var_sequence seqHandle = .handles items ∧
      items.map (fun it => it.child) = seqHandle.elems ∧
      items.map (fun it => it.childIdx) = List.range seqHandle.elems.length ∧
      ∀ it ∈ items, it.ownerKey = seqHandle.moduleKey ∧
        it.src = Source.nnModule (Source.item (.nnModule (.root "body"))
          (Key.int (it.childIdx : Int))) :=
  (unpack_var_sequence_spec seqHandle (.nnModule (.root "body")) rfl).1 (by decide)

/-! ## Restart protocol: `NNModuleVariable.convert_to_unspecialized`
(source lines 78-83) and the generation-tag registry -/

/-- Modelled from the spec: `GenerationTracker` lives in
`torchdynamo/mutation_guard.py`, which is not among the provided sources.
Spec section 5: a process-wide generation-tag registry mapping object identity
to a "must not be identity-specialized again" flag; `tag` marks an object.
Object identities are modelled as natural numbers. -/
structure GenTracker where
  tagged : List Nat

def GenTracker.tag (g : GenTracker) (objId : Nat) : GenTracker :=
  { tagged := objId :: g.tagged }

def GenTracker.isTagged (g : GenTracker) (objId : Nat) : Bool :=
  g.tagged.contains objId

inductive RestartOutcome where
  | restartAnalysis
  | returnedValue
deriving DecidableEq

/-- Lines 78-83: fetch the live object from the registry, tag it in the
process-wide generation tracker, raise `RestartAnalysis`.  The handle state is
threaded through unchanged (the method touches neither `module_type` nor
`module_key` nor the provenance). -/
def convert_to_unspecialized {V : Type} (getSubmodule : String → Nat)
    (g : GenTracker) (h : NNModuleHandle V) :
    GenTracker × NNModuleHandle V × RestartOutcome :=
  (g.tag (getSubmodule h.moduleKey), h, .restartAnalysis)

/-- C8: `convert_to_unspecialized` always marks the live object fetched from
the registry in the process-wide generation-tag registry (keyed by object
identity) and then raises the `RestartAnalysis` signal; it never returns a
value, and the handle's own state is unchanged. -/
theorem convert_to_unspecialized_spec {V : Type} (getSubmodule : String → Nat)
    (g : GenTracker) (h : NNModuleHandle V) :
    (convert_to_unspecialized getSubmodule g h).2.2 = .restartAnalysis ∧
    (convert_to_unspecialized getSubmodule g h).1.isTagged (getSubmodule h.moduleKey) = true ∧
    (convert_to_unspecialized getSubmodule g h).2.1 = h := by
  refine ⟨rfl, ?_, rfl⟩
  simp [convert_to_unspecialized, GenTracker.tag, GenTracker.isTagged]

/-! ## `UnspecializedNNModuleVariable.__init__` (source lines 364-368) -/

/-- Lines 366-368: `if self.source and self.source.is_nn_module():
self.source = NotNNModuleSource(self.source)` — the provenance the constructed
handle ends up carrying. -/
def unspecializedInit (source : Option Source) : Option Source :=
  match source with
  | some s => if s.is_nn_module then some (Source.notNNModule s) else some s
  | none => none

/-- C6: constructing an Unspecialized handle from a provenance marked
identity-tracked rewraps it as explicitly not-identity-tracked, while an
untracked provenance is left unchanged; either way the provenance the handle
carries reports untracked, so every guard subsequently created against the
handle attaches to a non-identity-tracked (class-level) provenance. -/
theorem unspecialized_init_widens_source (s : Source) :
    unspecializedInit (some s) =
      some (if s.is_nn_module then Source.notNNModule s else s) ∧
    Source.is_nn_module (if s.is_nn_module then Source.notNNModule s else s) = false := by
  by_cases hs : s.is_nn_module <;>
    simp_all [unspecializedInit, Source.is_nn_module]

/-! ## `UnspecializedNNModuleVariable.call_method` (source lines 415-448)

`inspect.getattr_static(type(self.value), name)` resolves `name` through the
class hierarchy without executing descriptors; the objects this method then
distinguishes are: the `torch.nn.Module.parameters` function itself, any other
object carrying a `__code__` attribute (classified by whether `id(__code__)`
is among `_nn_module_method_ids()`, the ids of the `torch.nn.Module.__dict__`
members that have code objects), and objects without `__code__`. -/

inductive StaticMethodObj where
  | parametersFn
  | withCode (inNNModuleIds : Bool)
  | noCode
deriving DecidableEq

/-- The fragment of the handle the method reads: the wrapped value's own
`__dict__` key set, the static class-attribute table of `type(self.value)`,
the value's `named_parameters()` listing, the handle's provenance and the
accumulated guard set carried by `options = vars.propagate(...)`. -/
structure UnspecState (V : Type) where
  source : Option Source
  instanceDictKeys : List String
  classStatic : List (String × StaticMethodObj)
  namedParams : List (String × V)
  guards : List Guard

inductive UnspecResult (V : Type) where
  | paramList (guards : List Guard) (items : List (Source × V))
  | missingDiag (name : String)
  | genericDispatch
  | assertErrorUnspec
  | hostAttributeError
deriving DecidableEq

/-- Lines 415-448.  Note two sharp edges of the source, kept faithfully:
the guard `assert not args or kwargs` parses as `(not args) or kwargs`, so it
fails exactly when positional arguments are given with no keyword arguments;
and `method.__code__` at line 445 is dereferenced whenever `method` is not
`torch.nn.Module.parameters`, so a `None` method (static lookup raised
`AttributeError`) or a method object without a `__code__` attribute crashes
with a host `AttributeError`. -/
def unspec_call_method {V : Type} (st : UnspecState V) (name : String)
    (args : List (Arg V)) (kwargs : List (String × Arg V)) : UnspecResult V :=
  if st.instanceDictKeys.contains name then .genericDispatch
  else
    match lookupStr st.classStatic name with
    | some .parametersFn =>
      if !args.isEmpty && kwargs.isEmpty then .assertErrorUnspec
      else
        match st.source with
        | none => .hostAttributeError
        | some src =>
          .paramList (addGuard st.guards ⟨src, .nnModuleParamNames⟩)
            (st.namedParams.map (fun p => (Source.attr src p.1, p.2)))
    | some (.withCode inIds) => if inIds then .missingDiag name else .genericDispatch
    | some .noCode => .hostAttributeError
    | none => .hostAttributeError

theorem mem_addGuard (gs : List Guard) (g : Guard) : g ∈ addGuard gs g := by
  unfold addGuard
  by_cases hc : gs.contains g
  · rw [if_pos hc]
    exact List.mem_of_elem_eq_true hc
  · rw [if_neg hc]
    exact List.mem_append_right gs (List.mem_singleton.mpr rfl)

/-- An Unspecialized handle state whose class resolves `parameters` to
`torch.nn.Module.parameters`. -/
def unspecParamState : UnspecState Nat :=
  { source := some (.notNNModule (.nnModule (.root "net")))
  , instanceDictKeys := ["training"]
  , classStatic := [("parameters", .parametersFn), ("forward", .withCode false)]
  , namedParams := [("weight", 31), ("bias", 32)]
  , guards := [] }

/-- C7 counterexample: invoking `parameters` — a name absent from the
instance's own data whose static lookup resolves to the base
enumerate-parameters behavior — with one positional argument and no keyword
arguments does not produce the guarded parameter list: the guard
`assert not args or kwargs` (which parses as `(not args) or kwargs`) fails,
raising `AssertionError` before any guard is emitted. -/
theorem unspec_parameters_positional_arg_cex :
    unspec_call_method unspecParamState "parameters" [Arg.const (.int 0)] [] =
      .assertErrorUnspec := by
  decide

/-- C7 (amended): `call_method` on an Unspecialized handle carrying a
provenance, invoked with no positional arguments on a name that is not in the
instance's own data and whose static class-hierarchy lookup resolves to the
base enumerate-parameters behavior, adds a guard of kind
structural-parameter-name-set-matches on the handle's provenance and returns a
mutable sequence with one generic tracked value per named parameter, each with
provenance `attribute(selfProvenance, parameterName)`. -/
theorem unspec_parameters_branch {V : Type} (st : UnspecState V) (name : String)
    (kwargs : List (String × Arg V)) (src : Source)
    (hdict : st.instanceDictKeys.contains name = false)
    (hres : lookupStr st.classStatic name = some .parametersFn)
    (hsrc : st.source = some src) :
    ∃ gs items,
      unspec_call_method st name [] kwargs = .paramList gs items ∧
      Guard.mk src .nnModuleParamNames ∈ gs ∧
      items.map (fun p => p.1) = st.namedParams.map (fun p => Source.attr src p.1) ∧
      items.map (fun p => p.2) = st.namedParams.map (fun p => p.2) := by
  refine ⟨addGuard st.guards ⟨src, .nnModuleParamNames⟩,
    st.namedParams.map (fun p => (Source.attr src p.1, p.2)), ?_,
    mem_addGuard st.guards ⟨src, .nnModuleParamNames⟩, ?_, ?_⟩
  · unfold unspec_call_method
    rw [hdict, hres, hsrc]
    simp
  · rw [List.map_map]
    rfl
  · rw [List.map_map]
    rfl

theorem unspec_parameters_branch_witness :
    ∃ gs items,
      unspec_call_method unspecParamState "parameters" [] [] = .paramList gs items ∧
      Guard.mk (.notNNModule (.nnModule (.root "net"))) .nnModuleParamNames ∈ gs ∧
      items.map (fun p => p.1) =
        unspecParamState.namedParams.map
          (fun p => Source.attr (.notNNModule (.nnModule (.root "net"))) p.1) ∧
      items.map (fun p => p.2) = unspecParamState.namedParams.map (fun p => p.2) :=
  unspec_parameters_branch unspecParamState "parameters" []
    (.notNNModule (.nnModule (.root "net"))) (by decide) (by decide) rfl

/-- C10: on an Unspecialized handle, a method name that is not in the
instance's own data and whose static class-hierarchy lookup either fails
(resolved method `None`) or yields an object without a `__code__` attribute —
and is not the enumerate-parameters behavior — makes `call_method` dereference
`method.__code__` and crash with a raw host `AttributeError` instead of a
clean unsupported-operation diagnostic or generic dispatch. -/
theorem unspec_missing_method_crash {V : Type} (st : UnspecState V) (name : String)
    (args : List (Arg V)) (kwargs : List (String × Arg V))
    (hdict : st.instanceDictKeys.contains name = false)
    (hres : lookupStr st.classStatic name = none ∨
      lookupStr st.classStatic name = some .noCode) :
    unspec_call_method st name args kwargs = .hostAttributeError := by
  unfold unspec_call_method
  rw [hdict]
  rcases hres with hres | hres <;> rw [hres] <;> simp

/-- A handle state whose class declares `dump_patches` (a plain class
attribute with no `__code__`) and nothing else of interest. -/
def unspecNoCodeState : UnspecState Nat :=
  { source := some (.notNNModule (.root "net"))
  , instanceDictKeys := []
  , classStatic := [("dump_patches", .noCode)]
  , namedParams := []
  , guards := [] }

theorem unspec_missing_method_crash_witness :
    unspec_call_method unspecNoCodeState "dump_patches" [] [] = .hostAttributeError ∧
    unspec_call_method unspecNoCodeState "no_such_method" [] [] = .hostAttributeError :=
  ⟨unspec_missing_method_crash unspecNoCodeState "dump_patches" [] [] (by decide)
      (Or.inr (by decide)),
    unspec_missing_method_crash unspecNoCodeState "no_such_method" [] [] (by decide)
      (Or.inl (by decide))⟩

end TowheeCompiler
